import Mathlib

/-!
Shallow embedding of the jellyhook worker services, translated from the
Python sources under `src/workers/src/workers/`:

* `services/metadata_update.py` — rule matching (`find_matching_rules`),
  rule application (`calculate_new_genres` / `calculate_new_tags`) and the
  no-op guard in `update_metadata`;
* `services/dovi_conversion.py` — the Dolby-Vision remux pipeline
  (`DoviConversionService.exec`), modelled as the trace of stages it invokes
  over an abstract environment (probe result, file contents, hash function);
* `services/orchestrator.py` — `ServiceOrchestrator.process_webhook`,
  `cleanup` and the module-level `process_webhook_message`;
* `utils.py` / `clients/rabbitmq.py` — `ack_message`.

External effects (subprocess invocations, the filesystem, the SHA-512
digest, the regex engine, HTTP) are abstracted into environment functions;
the control flow, guards and data transformations are translated directly
from the source.
-/

/- ### Python string ordering

Python's `sorted` on strings compares them lexicographically by Unicode
code point.  `pyCharsLt` is that strict order on the underlying character
lists; `pysorted` is a stable sort by it, standing in for Python `sorted`. -/

/-- Strict lexicographic order on character lists, by code point. -/
def pyCharsLt : List Char → List Char → Bool
  | [], [] => false
  | [], _ :: _ => true
  | _ :: _, [] => false
  | c :: cs, d :: ds =>
    if c < d then true
    else if d < c then false
    else pyCharsLt cs ds

/-- Non-strict comparison on strings used by the model of Python `sorted`. -/
def pyStrLe (a b : String) : Prop := pyCharsLt b.data a.data = false

instance : DecidableRel pyStrLe := fun a b => by unfold pyStrLe; infer_instance

/-- Model of Python `sorted` on a list of strings (stable, ascending). -/
def pysorted (l : List String) : List String := List.insertionSort pyStrLe l

/- ### Metadata rules: data model (`metadata_update.py`) -/

/-- JSON-like value held in a webhook event field (`item_data`). -/
inductive JVal where
  | str (s : String)
  | num (n : Int)
  | jbool (b : Bool)
  | null
deriving DecidableEq, Repr

/-- The `genres` / `tags` block of a metadata rule: the configured
`new_genres` / `new_tags` list and the `replace_existing` flag (defaults
applied as in the source: `.get("new_genres", [])`,
`.get("replace_existing", False)`).  `none` at the use site models a rule
whose block is missing or empty (`if not genre_config: continue`). -/
structure FieldMutation where
  new_values : List String
  replace_existing : Bool
deriving DecidableEq, Repr

/-- A metadata rule dict from `METADATA_RULES["rules"]`: the pattern-match
keys (with their `.get` defaults applied at the use sites) and the optional
`genres` / `tags` mutation blocks. -/
structure MetaRule where
  match_field : Option String := none
  match_pattern : Option String := none
  case_insensitive : Option Bool := none
  genres : Option FieldMutation := none
  tags : Option FieldMutation := none
deriving DecidableEq, Repr

/- ### Rule application (`calculate_new_genres` / `calculate_new_tags`) -/

/-- The additive inner loop of `calculate_new_genres`:
`for genre in new_rule_genres: if genre not in new_genres: new_genres.append(genre)`. -/
def addMissing (cur : List String) (vals : List String) : List String :=
  vals.foldl (fun acc g => if g ∈ acc then acc else acc ++ [g]) cur

/-- One iteration of the rule loop in `calculate_new_genres` /
`calculate_new_tags`: skip a missing/empty block, replace wholesale when
`replace_existing`, otherwise append the missing values. -/
def applyMutation (cur : List String) (m : Option FieldMutation) : List String :=
  match m with
  | none => cur
  | some cfg =>
    if cfg.replace_existing then cfg.new_values
    else addMissing cur cfg.new_values

/-- The full rule loop over a list of mutation blocks. -/
def applyMutations (ms : List (Option FieldMutation)) (cur : List String) : List String :=
  ms.foldl applyMutation cur

/-- Whether a mutation block takes the `replace_existing` branch. -/
def isReplaceB : Option FieldMutation → Bool
  | some cfg => cfg.replace_existing
  | none => false

/-- The configured value list of a block (empty for a missing block). -/
def mutationAddValues : Option FieldMutation → List String
  | some cfg => cfg.new_values
  | none => []

/-- `MetadataUpdateService.calculate_new_genres` as a function of the
matching rules and the original genre list (the value it returns; the
in-place aliasing of the config list is modelled separately by
`calculate_new_genres_heap`). -/
def calculate_new_genres (matching_rules : List MetaRule)
    (original_genres : List String) : List String :=
  matching_rules.foldl (fun acc r => applyMutation acc r.genres) original_genres

/-- `MetadataUpdateService.calculate_new_tags`, same shape as
`calculate_new_genres` over the `tags` blocks. -/
def calculate_new_tags (matching_rules : List MetaRule)
    (original_tags : List String) : List String :=
  matching_rules.foldl (fun acc r => applyMutation acc r.tags) original_tags

/- ### Heap-aware rule application

In the Python source, `new_genres = new_rule_genres` makes `new_genres` an
alias of the rule's configured list object; a later additive rule then
appends through that alias, mutating the configuration in place.  The model
below returns, next to the computed value, the rule list as it stands after
the call: while a replace-rule's list is the alias target, every append to
the running value is also written back into that rule. -/

/-- Replace the `new_values` of the `genres` block of the rule at index `j`. -/
def updateRuleGenres : List MetaRule → Nat → List String → List MetaRule
  | [], _, _ => []
  | r :: rest, 0, vals =>
    (match r.genres with
     | some cfg => { r with genres := some { cfg with new_values := vals } }
     | none => r) :: rest
  | r :: rest, Nat.succ j, vals => r :: updateRuleGenres rest j vals

/-- State of the genre loop: the (possibly mutated) rule list, the running
value list, and the index of the rule whose config list `new_genres`
currently aliases, if any. -/
structure GenreHeapState where
  rules : List MetaRule
  cur : List String
  aliasIdx : Option Nat
deriving Repr

/-- One iteration of the loop of `calculate_new_genres`, heap included. -/
def genreHeapStep (st : GenreHeapState) (i : Nat) : GenreHeapState :=
  match st.rules[i]? with
  | none => st
  | some r =>
    match r.genres with
    | none => st
    | some cfg =>
      if cfg.replace_existing then
        { st with cur := cfg.new_values, aliasIdx := some i }
      else
        let cur' := addMissing st.cur cfg.new_values
        let rules' :=
          match st.aliasIdx with
          | some j => updateRuleGenres st.rules j cur'
          | none => st.rules
        { st with cur := cur', rules := rules' }

/-- `calculate_new_genres` with the aliasing of the Python source made
explicit: returns the computed genre list together with the rule list as it
stands after the call (the second component differs from the input exactly
when the aliasing mutated a rule's configured `new_genres` list). -/
def calculate_new_genres_heap (matching_rules : List MetaRule)
    (original_genres : List String) : List String × List MetaRule :=
  let st := (List.range matching_rules.length).foldl genreHeapStep
    ⟨matching_rules, original_genres, none⟩
  (st.cur, st.rules)

/- ### Pattern-rule matching (`find_matching_rules`, pattern loop) -/

/-- Error raised when `regex.search` is handed a non-string field value
(Python `TypeError`). -/
inductive MatchErr where
  | typeError
deriving DecidableEq, Repr

/-- True when a field value is absent or a string — the cases in which
`regex.search(field_value)` does not raise. -/
def isStrOrMissing : Option JVal → Bool
  | none => true
  | some (JVal.str _) => true
  | some _ => false

/-- The string the engine would search for a given rule: the named field's
string value, the empty string when the field is absent. -/
def matchSubject (item_data : List (String × JVal)) (r : MetaRule) : String :=
  match (item_data.lookup (r.match_field.getD "Name")).getD (JVal.str "") with
  | JVal.str s => s
  | _ => ""

/-- The pattern-rule loop of `find_matching_rules`, threading the list of
matched rules (`self.matching_rules`).  The regex engine is abstract:
`search pattern case_insensitive subject` decides `regex.search`.  A
present non-string field value reaches `regex.search` and raises
`TypeError`, mirroring `item_data.get(field_name, "")` followed by
`regex.search(field_value)`. -/
def findPatternGo (search : String → Bool → String → Bool)
    (item_data : List (String × JVal)) (acc : List MetaRule) :
    List MetaRule → Except MatchErr (List MetaRule)
  | [] => Except.ok acc
  | pattern_rule :: rest =>
    let field_name := pattern_rule.match_field.getD "Name"
    let pat := pattern_rule.match_pattern.getD ""
    let case_insensitive := pattern_rule.case_insensitive.getD true
    match (item_data.lookup field_name).getD (JVal.str "") with
    | JVal.str field_value =>
      findPatternGo search item_data
        (if search pat case_insensitive field_value then acc ++ [pattern_rule] else acc) rest
    | _ => Except.error MatchErr.typeError

/-- The pattern-rule half of `MetadataUpdateService.find_matching_rules`. -/
def find_matching_pattern_rules (search : String → Bool → String → Bool)
    (item_data : List (String × JVal)) (rules : List MetaRule) :
    Except MatchErr (List MetaRule) :=
  findPatternGo search item_data [] rules

/- ### The no-op guard of `update_metadata` -/

/-- The body of the HTTP POST that `update_metadata` would issue: the
`Genres` / `Tags` entries of `data`, each present only when its sorted new
list differs from the sorted original. -/
structure WritePayload where
  genres : Option (List String)
  tags : Option (List String)
deriving DecidableEq, Repr

/-- `MetadataUpdateService.update_metadata`, reduced to its observable
decision: `none` when no HTTP POST is issued, `some payload` when a write
with that payload is sent.  The guard compares `sorted(new) == sorted(old)`
for genres and tags, exactly as the source does. -/
def update_metadata (matching_rules : List MetaRule)
    (original_genres original_tags : List String) : Option WritePayload :=
  let new_genres := calculate_new_genres matching_rules original_genres
  let new_tags := calculate_new_tags matching_rules original_tags
  if pysorted new_genres = pysorted original_genres ∧
      pysorted new_tags = pysorted original_tags then none
  else
    let data : WritePayload :=
      { genres :=
          if pysorted new_genres ≠ pysorted original_genres then some new_genres else none,
        tags :=
          if pysorted new_tags ≠ pysorted original_tags then some new_tags else none }
    if data.genres = none ∧ data.tags = none then none else some data

/- ### Dolby-Vision conversion pipeline (`dovi_conversion.py`) -/

/-- One entry of `side_data_list` in the ffprobe output: the `dv_profile`
key, absent when ffprobe reports no Dolby-Vision metadata. -/
structure SideData where
  dv_profile : Option Int
deriving DecidableEq, Repr

/-- One entry of `streams` in the ffprobe output. -/
structure ProbeStream where
  side_data_list : List SideData
deriving DecidableEq, Repr

/-- Abstract environment of a `DoviConversionService.exec` run: the parsed
ffprobe output for the movie, the scratch directory path, the bytes the
filesystem holds at each path when it is read, and the hex-digest function
(`hashlib.sha512(...).hexdigest()` is abstracted as an arbitrary function
of the file's bytes). -/
structure DoviEnv where
  streams : List ProbeStream
  tmp_dir : String
  fileBytes : String → List Nat
  sha512hex : List Nat → String

/-- `DoviConversionService.get_dovi_profile`: reads
`media_info["streams"][0]["side_data_list"][0]["dv_profile"]`, returning
`None` on `IndexError` / `KeyError`. -/
def get_dovi_profile (env : DoviEnv) : Option Int :=
  match env.streams[0]? with
  | none => none
  | some st =>
    match st.side_data_list[0]? with
    | none => none
    | some sd => sd.dv_profile

/-- `DOVI_PROFLE_7` from the source (sic). -/
def DOVI_PROFLE_7 : Int := 7

/-- Python truthiness of the probed profile: `not dovi_profile` is true for
`None` and for `0`. -/
def pyFalsyInt : Option Int → Bool
  | none => true
  | some n => n == 0

/-- `DoviConversionService.extract_layer` output path:
`f"{self.tmp_dir}/{output_layer}"`. -/
def extract_layer (env : DoviEnv) (output_layer : String) : String :=
  env.tmp_dir ++ "/" ++ output_layer

/-- `DoviConversionService.calculate_sha512` of the file at `file_path`:
hex digest of the bytes read from the filesystem. -/
def calculate_sha512 (env : DoviEnv) (file_path : String) : String :=
  env.sha512hex (env.fileBytes file_path)

/-- The stages `DoviConversionService.exec` can invoke, in pipeline order. -/
inductive DoviStage where
  | probe
  | extractVideo
  | demuxVideo
  | extractBaseRpu
  | extractEnhancementRpu
  | convertProfile
  | mergeMkv
  | moveToTarget
deriving DecidableEq, Repr

/-- Whether a stage writes to the filesystem (every stage after the probe
produces scratch files or, for the final move, replaces the source; ffprobe
only inspects the movie). -/
def stageWritesFilesystem : DoviStage → Bool
  | DoviStage.probe => false
  | _ => true

/-- Whether a stage modifies the source movie file (`move_to_target` calls
`self.movie.delete()` and renames the merged output over the source path). -/
def stageModifiesSource : DoviStage → Bool
  | DoviStage.moveToTarget => true
  | _ => false

/-- `DoviConversionService.exec` as the ordered trace of stages it invokes:
probe, the profile guard (`if not dovi_profile or dovi_profile !=
DOVI_PROFLE_7: return`), extraction and demux, the RPU sync guard
(`if bl_checksum != el_checksum: return`), then conversion, merge and the
final move. -/
def dovi_exec_trace (env : DoviEnv) : List DoviStage :=
  let dovi_profile := get_dovi_profile env
  if pyFalsyInt dovi_profile || dovi_profile != some DOVI_PROFLE_7 then
    [DoviStage.probe]
  else
    let pre := [DoviStage.probe, DoviStage.extractVideo, DoviStage.demuxVideo,
      DoviStage.extractBaseRpu, DoviStage.extractEnhancementRpu]
    let base_layer := extract_layer env "BL_RPU.bin"
    let enhancement_layer := extract_layer env "EL_RPU.bin"
    let bl_checksum := calculate_sha512 env base_layer
    let el_checksum := calculate_sha512 env enhancement_layer
    if bl_checksum != el_checksum then pre
    else pre ++ [DoviStage.convertProfile, DoviStage.mergeMkv, DoviStage.moveToTarget]

/- ### Orchestrator (`orchestrator.py`) -/

/-- Result of attempting one configured service on a message:
`notCreated` — `create_service_instance` returned `None` (unknown service
or import failure), the loop `continue`s; `execOk d` — the instance was
built and `exec()` returned, `d` its `tmp_dir` attribute if it has one;
`raisesExc d` — building the instance or running `exec()` raised, `d` the
scratch directory that `from_message` had already created, if any. -/
inductive SvcOutcome where
  | notCreated
  | execOk (tmp_dir : Option String)
  | raisesExc (tmp_dir : Option String)
deriving DecidableEq, Repr

/-- Whether the attempt raised an exception. -/
def outcomeRaises : SvcOutcome → Bool
  | SvcOutcome.raisesExc _ => true
  | _ => false

/-- The scratch directory actually created on disk by the attempt
(`from_message` makes the directory before `exec` runs). -/
def outcomeCreatedDir : SvcOutcome → Option String
  | SvcOutcome.execOk d => d
  | SvcOutcome.raisesExc d => d
  | SvcOutcome.notCreated => none

/-- One service entry of a webhook's configuration, together with the
outcome its attempt would have on the message being processed. -/
structure SvcSpec where
  name : String
  priority : Option Nat := none
  outcome : SvcOutcome
deriving DecidableEq, Repr

/-- `get_enabled_services`: the enabled services sorted by
`s.get("priority", 100)` (Python's stable sort). -/
def pysortServices (services : List SvcSpec) : List SvcSpec :=
  List.insertionSort (fun a b => a.priority.getD 100 ≤ b.priority.getD 100) services

/-- Observable result of `process_webhook`: the aggregated `completed`
flag, the names of the services attempted in order, and the orchestrator's
`self.temp_dirs` set (insertion-ordered, duplicates dropped, as a Python
`set` of paths). -/
structure OrchResult where
  completed : Bool
  attempted : List String
  temp_dirs : List String
deriving DecidableEq, Repr

/-- `set.add` on the tracked-directory list. -/
def setAdd (dirs : List String) (d : String) : List String :=
  if d ∈ dirs then dirs else dirs ++ [d]

/-- One iteration of the service loop of `process_webhook`: always record
the attempt; on normal return track the instance's `tmp_dir` if it has one;
on an exception mark the run failed unless the service is
`"metadata_update"` (the `tmp_dir` tracking line is *after* `service.exec()`
in the source, so a raising service is never tracked). -/
def runService (st : OrchResult) (svc : SvcSpec) : OrchResult :=
  let st := { st with attempted := st.attempted ++ [svc.name] }
  match svc.outcome with
  | SvcOutcome.notCreated => st
  | SvcOutcome.execOk tmp =>
    match tmp with
    | some d => { st with temp_dirs := setAdd st.temp_dirs d }
    | none => st
  | SvcOutcome.raisesExc _ =>
    if svc.name ≠ "metadata_update" then { st with completed := false } else st

/-- `ServiceOrchestrator.process_webhook`: skip a disabled webhook
(returning `True`), return `True` when no service is enabled, otherwise run
every enabled service in priority order. -/
def process_webhook (webhook_enabled : Bool) (services : List SvcSpec) : OrchResult :=
  if !webhook_enabled then ⟨true, [], []⟩
  else
    let enabled_services := pysortServices services
    if enabled_services.isEmpty then ⟨true, [], []⟩
    else enabled_services.foldl runService ⟨true, [], []⟩

/-- The scratch directories that the attempts actually created on disk. -/
def createdDirs (services : List SvcSpec) : List String :=
  services.filterMap (fun s => outcomeCreatedDir s.outcome)

/- ### Cleanup and `process_webhook_message` -/

/-- What `utils.clean_dir` does on one tracked directory: succeeds, raises
`FileNotFoundError`, raises `PermissionError`, or raises something else. -/
inductive CleanOutcome where
  | ok
  | fileNotFound
  | permissionError
  | otherError
deriving DecidableEq, Repr

/-- Exceptions that can escape the `try` of `process_webhook_message`:
`json.loads` failing on the body, or `cleanup` hitting an exception outside
the `(FileNotFoundError, PermissionError)` handler. -/
inductive PwmErr where
  | jsonDecodeError
  | cleanupError
deriving DecidableEq, Repr

/-- `ServiceOrchestrator.cleanup`: walk the tracked directories, deleting
each; `FileNotFoundError` and `PermissionError` are caught and logged, any
other exception propagates.  Returns the directories actually removed. -/
def cleanup (temp_dirs : List String) (clean_result : String → CleanOutcome) :
    Except PwmErr (List String) :=
  temp_dirs.foldlM
    (fun removed d =>
      match clean_result d with
      | CleanOutcome.ok => Except.ok (removed ++ [d])
      | CleanOutcome.fileNotFound => Except.ok removed
      | CleanOutcome.permissionError => Except.ok removed
      | CleanOutcome.otherError => Except.error PwmErr.cleanupError)
    []

/-- Abstract environment of one `process_webhook_message` call: whether
`json.loads` succeeds on the body, whether the webhook is enabled, the
configured services with their outcomes on this message, and what
`clean_dir` does on each tracked directory. -/
structure MsgEnv where
  json_ok : Bool
  webhook_enabled : Bool
  services : List SvcSpec
  clean_result : String → CleanOutcome

/-- The body of the `try` block of `process_webhook_message`: parse, run
the orchestrator, clean up, return the orchestrator's result.  An
`Except.error` is an exception escaping the block. -/
def pwm_run (env : MsgEnv) : Except PwmErr Bool :=
  if !env.json_ok then Except.error PwmErr.jsonDecodeError
  else
    let result := process_webhook env.webhook_enabled env.services
    match cleanup result.temp_dirs env.clean_result with
    | Except.ok _ => Except.ok result.completed
    | Except.error e => Except.error e

/-- `process_webhook_message`: the `try` body, with every escaping
exception caught and turned into `False`. -/
def process_webhook_message (env : MsgEnv) : Bool :=
  match pwm_run env with
  | Except.ok result => result
  | Except.error _ => false

/- ### Message acknowledgment (`utils.ack_message`,
`MessageConsumer._ack_message` — the two are textually identical) -/

/-- The acknowledgment action taken on the channel. -/
inductive AckAction where
  | noAction
  | basicAck (delivery_tag : Int)
  | basicNack (delivery_tag : Int) (requeue : Bool)
deriving DecidableEq, Repr

/-- `ack_message`: return without acting on a closed channel, `basic_ack`
on success, `basic_nack(requeue=False)` on failure. -/
def ack_message (channel_is_open : Bool) (delivery_tag : Int) (completed : Bool) : AckAction :=
  if !channel_is_open then AckAction.noAction
  else if completed then AckAction.basicAck delivery_tag
  else AckAction.basicNack delivery_tag false

/-! ## Supporting lemmas -/

/- ### The Python string order is total, transitive and antisymmetric -/

theorem pyCharsLt_conn : ∀ a b : List Char,
    pyCharsLt a b = false → pyCharsLt b a = false → a = b := by
  intro a
  induction a with
  | nil => intro b; cases b <;> simp [pyCharsLt]
  | cons c cs ih =>
    intro b
    cases b with
    | nil => simp [pyCharsLt]
    | cons d ds =>
      simp only [pyCharsLt]
      intro h1 h2
      by_cases hcd : c < d
      · simp [hcd] at h1
      · by_cases hdc : d < c
        · simp [hcd, hdc] at h1
          simp [hdc] at h2
        · have : c = d := le_antisymm (not_lt.mp hdc) (not_lt.mp hcd)
          subst this
          simp [hcd] at h1 h2
          rw [ih ds h1 h2]

theorem pyCharsLt_asymm : ∀ a b : List Char,
    pyCharsLt a b = true → pyCharsLt b a = false := by
  intro a
  induction a with
  | nil => intro b; cases b <;> simp [pyCharsLt]
  | cons c cs ih =>
    intro b
    cases b with
    | nil => simp [pyCharsLt]
    | cons d ds =>
      simp only [pyCharsLt]
      intro h1
      by_cases hcd : c < d
      · simp [hcd, asymm hcd]
      · by_cases hdc : d < c
        · simp [hcd, hdc] at h1
        · simp [hcd, hdc] at h1 ⊢
          exact ih ds h1

theorem pyCharsLt_trans : ∀ a b c : List Char,
    pyCharsLt a b = true → pyCharsLt b c = true → pyCharsLt a c = true := by
  intro a
  induction a with
  | nil =>
    intro b c h1 h2
    cases b with
    | nil => cases c <;> simp [pyCharsLt] at *
    | cons d ds =>
      cases c with
      | nil => simp [pyCharsLt] at h2
      | cons e es => simp [pyCharsLt]
  | cons x xs ih =>
    intro b c h1 h2
    cases b with
    | nil => simp [pyCharsLt] at h1
    | cons y ys =>
      cases c with
      | nil => simp [pyCharsLt] at h2
      | cons z zs =>
        simp only [pyCharsLt] at h1 h2 ⊢
        rcases lt_trichotomy x y with hxy | hxy | hxy
        · rcases lt_trichotomy y z with hyz | hyz | hyz
          · simp [lt_trans hxy hyz]
          · subst hyz; simp [hxy]
          · simp [hyz, asymm hyz] at h2
        · subst hxy
          rcases lt_trichotomy x z with hxz | hxz | hxz
          · simp [hxz]
          · subst hxz
            simp [lt_irrefl] at h1 h2 ⊢
            exact ih ys zs h1 h2
          · simp [hxz, asymm hxz] at h2
        · simp [hxy, asymm hxy] at h1

instance : IsTotal String pyStrLe :=
  ⟨fun a b => by
    unfold pyStrLe
    cases h : pyCharsLt b.data a.data
    · left; rfl
    · right; exact pyCharsLt_asymm _ _ h⟩

instance : IsTrans String pyStrLe :=
  ⟨fun a b c h1 h2 => by
    unfold pyStrLe at h1 h2 ⊢
    cases h3 : pyCharsLt c.data a.data
    · rfl
    · exfalso
      cases h4 : pyCharsLt b.data c.data
      · have hbc : b.data = c.data := pyCharsLt_conn _ _ h4 h2
        rw [hbc] at h1
        rw [h1] at h3
        cases h3
      · have hba : pyCharsLt b.data a.data = true := pyCharsLt_trans _ _ _ h4 h3
        rw [hba] at h1
        cases h1⟩

instance : IsAntisymm String pyStrLe :=
  ⟨fun a b h1 h2 => by
    have h := pyCharsLt_conn _ _ h1 h2
    cases a
    cases b
    simp only at h
    rw [h]⟩

/-- Two string lists have equal `pysorted` forms iff they are permutations
of one another (multiset equality). -/
theorem pysorted_eq_iff_perm (a b : List String) :
    pysorted a = pysorted b ↔ List.Perm a b := by
  constructor
  · intro h
    have pa := List.perm_insertionSort pyStrLe a
    have pb := List.perm_insertionSort pyStrLe b
    rw [show List.insertionSort pyStrLe a = List.insertionSort pyStrLe b from h] at pa
    exact pa.symm.trans pb
  · intro h
    exact List.eq_of_perm_of_sorted
      (((List.perm_insertionSort pyStrLe a).trans h).trans
        (List.perm_insertionSort pyStrLe b).symm)
      (List.sorted_insertionSort pyStrLe a)
      (List.sorted_insertionSort pyStrLe b)

/- ### Rule application: idempotence machinery -/

theorem addMissing_nil (cur : List String) : addMissing cur [] = cur := rfl

theorem addMissing_cons (cur : List String) (v : String) (vs : List String) :
    addMissing cur (v :: vs) = addMissing (if v ∈ cur then cur else cur ++ [v]) vs := rfl

theorem mem_addMissing_left {a : String} :
    ∀ (vals cur : List String), a ∈ cur → a ∈ addMissing cur vals := by
  intro vals
  induction vals with
  | nil => intro cur h; exact h
  | cons v vs ih =>
    intro cur h
    rw [addMissing_cons]
    apply ih
    by_cases hv : v ∈ cur
    · simpa [hv] using h
    · simp only [hv, if_false]
      exact List.mem_append_left _ h

theorem mem_addMissing_right {a : String} :
    ∀ (vals cur : List String), a ∈ vals → a ∈ addMissing cur vals := by
  intro vals
  induction vals with
  | nil => intro cur h; cases h
  | cons v vs ih =>
    intro cur h
    rw [addMissing_cons]
    rcases List.mem_cons.mp h with rfl | h
    · apply mem_addMissing_left
      by_cases hv : a ∈ cur
      · simp [hv]
      · simp [hv]
    · exact ih _ h

theorem addMissing_eq_self :
    ∀ (vals cur : List String), (∀ x ∈ vals, x ∈ cur) → addMissing cur vals = cur := by
  intro vals
  induction vals with
  | nil => intro cur _; rfl
  | cons v vs ih =>
    intro cur h
    rw [addMissing_cons]
    have hv : v ∈ cur := h v (List.mem_cons_self _ _)
    rw [if_pos hv]
    exact ih cur (fun x hx => h x (List.mem_cons_of_mem _ hx))

theorem applyMutation_mem_left {a : String} {m : Option FieldMutation}
    (hm : isReplaceB m = false) {cur : List String} (h : a ∈ cur) :
    a ∈ applyMutation cur m := by
  cases m with
  | none => exact h
  | some cfg =>
    simp only [isReplaceB] at hm
    simp only [applyMutation, hm, if_false, Bool.false_eq_true]
    exact mem_addMissing_left _ _ h

theorem applyMutation_mem_vals {a : String} {m : Option FieldMutation}
    (hm : isReplaceB m = false) (cur : List String) (h : a ∈ mutationAddValues m) :
    a ∈ applyMutation cur m := by
  cases m with
  | none => cases h
  | some cfg =>
    simp only [isReplaceB] at hm
    simp only [mutationAddValues] at h
    simp only [applyMutation, hm, if_false, Bool.false_eq_true]
    exact mem_addMissing_right _ _ h

theorem applyMutation_eq_self {m : Option FieldMutation}
    (hm : isReplaceB m = false) {cur : List String}
    (h : ∀ x ∈ mutationAddValues m, x ∈ cur) :
    applyMutation cur m = cur := by
  cases m with
  | none => rfl
  | some cfg =>
    simp only [isReplaceB] at hm
    simp only [mutationAddValues] at h
    simp only [applyMutation, hm, if_false, Bool.false_eq_true]
    exact addMissing_eq_self _ _ h

theorem applyMutations_nil (cur : List String) : applyMutations [] cur = cur := rfl

theorem applyMutations_cons (m : Option FieldMutation) (ms : List (Option FieldMutation))
    (cur : List String) :
    applyMutations (m :: ms) cur = applyMutations ms (applyMutation cur m) := rfl

theorem applyMutations_append (l₁ l₂ : List (Option FieldMutation)) (cur : List String) :
    applyMutations (l₁ ++ l₂) cur = applyMutations l₂ (applyMutations l₁ cur) := by
  simp [applyMutations, List.foldl_append]

theorem applyMutations_mem_left {a : String} :
    ∀ (ms : List (Option FieldMutation)), (∀ m ∈ ms, isReplaceB m = false) →
      ∀ cur : List String, a ∈ cur → a ∈ applyMutations ms cur := by
  intro ms
  induction ms with
  | nil => intro _ cur h; exact h
  | cons m t ih =>
    intro hno cur h
    rw [applyMutations_cons]
    exact ih (fun m' hm' => hno m' (List.mem_cons_of_mem _ hm'))
      _ (applyMutation_mem_left (hno m (List.mem_cons_self _ _)) h)

theorem applyMutations_saturated {a : String} :
    ∀ (ms : List (Option FieldMutation)), (∀ m ∈ ms, isReplaceB m = false) →
      ∀ m ∈ ms, a ∈ mutationAddValues m →
        ∀ cur : List String, a ∈ applyMutations ms cur := by
  intro ms
  induction ms with
  | nil => intro _ m hm; cases hm
  | cons m₀ t ih =>
    intro hno m hm ha cur
    rw [applyMutations_cons]
    rcases List.mem_cons.mp hm with rfl | hm
    · exact applyMutations_mem_left t (fun m' hm' => hno m' (List.mem_cons_of_mem _ hm')) _
        (applyMutation_mem_vals (hno m (List.mem_cons_self _ _)) _ ha)
    · exact ih (fun m' hm' => hno m' (List.mem_cons_of_mem _ hm')) m hm ha _

theorem applyMutations_fixpoint :
    ∀ (ms : List (Option FieldMutation)), (∀ m ∈ ms, isReplaceB m = false) →
      ∀ cur : List String, (∀ m ∈ ms, ∀ a ∈ mutationAddValues m, a ∈ cur) →
        applyMutations ms cur = cur := by
  intro ms
  induction ms with
  | nil => intro _ cur _; rfl
  | cons m t ih =>
    intro hno cur hall
    rw [applyMutations_cons,
      applyMutation_eq_self (hno m (List.mem_cons_self _ _))
        (hall m (List.mem_cons_self _ _))]
    exact ih (fun m' hm' => hno m' (List.mem_cons_of_mem _ hm')) cur
      (fun m' hm' => hall m' (List.mem_cons_of_mem _ hm'))

theorem replace_decomp :
    ∀ ms : List (Option FieldMutation),
      (∀ m ∈ ms, isReplaceB m = false) ∨
      ∃ l₁ m l₂, ms = l₁ ++ m :: l₂ ∧ isReplaceB m = true ∧
        ∀ m' ∈ l₂, isReplaceB m' = false := by
  intro ms
  induction ms with
  | nil => left; intro m hm; cases hm
  | cons e t ih =>
    rcases ih with h | ⟨l₁, m, l₂, heq, hm, hl₂⟩
    · cases he : isReplaceB e
      · left
        intro m hm
        rcases List.mem_cons.mp hm with rfl | hm
        · exact he
        · exact h m hm
      · right
        exact ⟨[], e, t, rfl, he, h⟩
    · right
      exact ⟨e :: l₁, m, l₂, by rw [heq]; rfl, hm, hl₂⟩

theorem applyMutations_idem (ms : List (Option FieldMutation)) (cur : List String) :
    applyMutations ms (applyMutations ms cur) = applyMutations ms cur := by
  rcases replace_decomp ms with h | ⟨l₁, m, l₂, rfl, hm, hl₂⟩
  · exact applyMutations_fixpoint ms h _
      (fun m hm a ha => applyMutations_saturated ms h m hm ha cur)
  · obtain ⟨cfg, rfl, hrepl⟩ : ∃ cfg, m = some cfg ∧ cfg.replace_existing = true := by
      cases m with
      | none => simp [isReplaceB] at hm
      | some cfg => exact ⟨cfg, rfl, by simpa [isReplaceB] using hm⟩
    have hconst : ∀ x : List String, applyMutation x (some cfg) = cfg.new_values := by
      intro x
      simp [applyMutation, hrepl]
    simp only [applyMutations_append, applyMutations_cons, hconst]

theorem calculate_new_genres_eq (matching_rules : List MetaRule) (g : List String) :
    calculate_new_genres matching_rules g
      = applyMutations (matching_rules.map (fun r => r.genres)) g := by
  simp [calculate_new_genres, applyMutations, List.foldl_map]

theorem calculate_new_tags_eq (matching_rules : List MetaRule) (t : List String) :
    calculate_new_tags matching_rules t
      = applyMutations (matching_rules.map (fun r => r.tags)) t := by
  simp [calculate_new_tags, applyMutations, List.foldl_map]

theorem calculate_new_genres_idem (matching_rules : List MetaRule) (g : List String) :
    calculate_new_genres matching_rules (calculate_new_genres matching_rules g)
      = calculate_new_genres matching_rules g := by
  simp only [calculate_new_genres_eq]
  exact applyMutations_idem _ _

theorem calculate_new_tags_idem (matching_rules : List MetaRule) (t : List String) :
    calculate_new_tags matching_rules (calculate_new_tags matching_rules t)
      = calculate_new_tags matching_rules t := by
  simp only [calculate_new_tags_eq]
  exact applyMutations_idem _ _

/- ### Pattern-rule matching: characterization lemma -/

theorem findPatternGo_ok (search : String → Bool → String → Bool)
    (item_data : List (String × JVal)) :
    ∀ (rules acc : List MetaRule),
      (∀ r ∈ rules,
        isStrOrMissing (item_data.lookup (r.match_field.getD "Name")) = true) →
      findPatternGo search item_data acc rules =
        Except.ok (acc ++ rules.filter (fun r =>
          search (r.match_pattern.getD "") (r.case_insensitive.getD true)
            (matchSubject item_data r))) := by
  intro rules
  induction rules with
  | nil => intro acc _; simp [findPatternGo]
  | cons r rest ih =>
    intro acc h
    have hr := h r (List.mem_cons_self _ _)
    have hrest : ∀ r' ∈ rest,
        isStrOrMissing (item_data.lookup (r'.match_field.getD "Name")) = true :=
      fun r' hr' => h r' (List.mem_cons_of_mem _ hr')
    cases hl : item_data.lookup (r.match_field.getD "Name") with
    | none =>
      have hsub : matchSubject item_data r = "" := by
        simp [matchSubject, hl]
      simp only [findPatternGo, hl, Option.getD_none]
      rw [ih _ hrest, List.filter_cons, hsub]
      cases hs : search (r.match_pattern.getD "") (r.case_insensitive.getD true) ""
      · simp [hs]
      · simp [hs]
    | some v =>
      cases v with
      | str s =>
        have hsub : matchSubject item_data r = s := by
          simp [matchSubject, hl]
        simp only [findPatternGo, hl, Option.getD_some]
        rw [ih _ hrest, List.filter_cons, hsub]
        cases hs : search (r.match_pattern.getD "") (r.case_insensitive.getD true) s
        · simp [hs]
        · simp [hs]
      | num n => rw [hl] at hr; simp [isStrOrMissing] at hr
      | jbool b => rw [hl] at hr; simp [isStrOrMissing] at hr
      | null => rw [hl] at hr; simp [isStrOrMissing] at hr

/-! ## Claim theorems -/

/-- C3: rule application is idempotent as a value-set property — for every
list of matching rules and every starting genre/tag list, applying the rule
list to the result of applying it once yields the same value set (indeed,
by `calculate_new_genres_idem` / `calculate_new_tags_idem`, the same list)
as applying it once. -/
theorem rule_application_idempotent (matching_rules : List MetaRule)
    (original_genres original_tags : List String) :
    (calculate_new_genres matching_rules
        (calculate_new_genres matching_rules original_genres)).toFinset
      = (calculate_new_genres matching_rules original_genres).toFinset ∧
    (calculate_new_tags matching_rules
        (calculate_new_tags matching_rules original_tags)).toFinset
      = (calculate_new_tags matching_rules original_tags).toFinset :=
  ⟨congrArg List.toFinset (calculate_new_genres_idem matching_rules original_genres),
   congrArg List.toFinset (calculate_new_tags_idem matching_rules original_tags)⟩

/-- C4 (code bug): `calculate_new_genres` mutates the loaded configuration.
With a `replace_existing` rule configured with `["A"]` followed by an
additive rule configured with `["B"]`, the run returns `["A", "B"]` — and
the first rule's configured `new_genres` list, reachable from the loaded
`METADATA_RULES`, has been extended in place to `["A", "B"]` through the
`new_genres = new_rule_genres` alias. -/
theorem config_mutated_by_replace_then_add :
    calculate_new_genres_heap
        [{ genres := some ⟨["A"], true⟩ }, { genres := some ⟨["B"], false⟩ }] []
      = (["A", "B"],
         [{ genres := some ⟨["A", "B"], true⟩ }, { genres := some ⟨["B"], false⟩ }]) := by
  decide

/-- C6 counterexample: with original genres `["A", "A"]` and a matching
replace-rule configured with `["A"]`, the computed new value set equals the
current value set as an unordered set, yet `update_metadata` issues a write
(the source compares `sorted(new) == sorted(old)`, i.e. multisets, not
sets). -/
theorem metadata_noop_set_equal_counterexample :
    (calculate_new_genres [{ genres := some ⟨["A"], true⟩ }] ["A", "A"]).toFinset
        = (["A", "A"] : List String).toFinset ∧
    update_metadata [{ genres := some ⟨["A"], true⟩ }] ["A", "A"] []
        = some { genres := some ["A"], tags := none } := by
  constructor
  · decide
  · decide

/-- C6 (amended): `update_metadata` reports no change and performs no write
iff the computed new genre and tag lists each equal the corresponding
current list as a multiset (equivalently, are permutations of it); a write
is issued exactly when one of them differs as a multiset. -/
theorem metadata_noop_iff_permutation (matching_rules : List MetaRule)
    (original_genres original_tags : List String) :
    update_metadata matching_rules original_genres original_tags = none ↔
      (List.Perm (calculate_new_genres matching_rules original_genres) original_genres ∧
       List.Perm (calculate_new_tags matching_rules original_tags) original_tags) := by
  rw [← pysorted_eq_iff_perm, ← pysorted_eq_iff_perm]
  unfold update_metadata
  by_cases hG : pysorted (calculate_new_genres matching_rules original_genres)
      = pysorted original_genres
  · by_cases hT : pysorted (calculate_new_tags matching_rules original_tags)
        = pysorted original_tags
    · simp [hG, hT]
    · simp [hG, hT]
  · by_cases hT : pysorted (calculate_new_tags matching_rules original_tags)
        = pysorted original_tags
    · simp [hG, hT]
    · simp [hG, hT]

/-- C7 counterexample: a pattern rule whose named match field holds a
non-string value is not evaluated against the empty string — the lookup
hands the non-string value to `regex.search`, which raises `TypeError`
(modelled as `Except.error`), contradicting the claim that no exception is
raised. -/
theorem pattern_rule_nonstring_counterexample :
    find_matching_pattern_rules (fun _ _ s => s == "x") [("Name", JVal.num 3)]
        [{ match_pattern := some "p" }]
      = Except.error MatchErr.typeError := rfl

/-- C7 (amended): pattern-rule matching over event fields that are absent
or strings — when every field named by a rule is absent or holds a string,
no exception is raised and the matched rules are exactly those whose
abstract `regex.search` succeeds on the named field's string value (the
empty string for an absent field), under the rule's case-insensitivity
flag; a present non-string field value instead raises `TypeError`
(`pattern_rule_nonstring_counterexample`). -/
theorem pattern_rule_matching_characterization
    (search : String → Bool → String → Bool)
    (item_data : List (String × JVal)) (rules : List MetaRule)
    (h : ∀ r ∈ rules,
      isStrOrMissing (item_data.lookup (r.match_field.getD "Name")) = true) :
    find_matching_pattern_rules search item_data rules =
      Except.ok (rules.filter (fun r =>
        search (r.match_pattern.getD "") (r.case_insensitive.getD true)
          (matchSubject item_data r))) := by
  unfold find_matching_pattern_rules
  rw [findPatternGo_ok search item_data rules [] h]
  simp

/-- Witness for the amended C7 theorem at a concrete event and rule list:
the hypothesis (the named field holds a string) is discharged by
computation and the conclusion is evaluated. -/
theorem pattern_rule_matching_witness :
    (∀ r ∈ ([{ match_pattern := some "p" }] : List MetaRule),
        isStrOrMissing ((([("Name", JVal.str "x")] : List (String × JVal)).lookup
          (r.match_field.getD "Name"))) = true) ∧
    find_matching_pattern_rules (fun _ _ s => s == "x") [("Name", JVal.str "x")]
        [{ match_pattern := some "p" }]
      = Except.ok [{ match_pattern := some "p" }] := by
  constructor
  · decide
  · rw [pattern_rule_matching_characterization (fun _ _ s => s == "x")
      [("Name", JVal.str "x")] [{ match_pattern := some "p" }] (by decide)]
    rfl

/- ### Dovi pipeline: trace characterization -/

theorem dovi_trace_cases (env : DoviEnv) :
    dovi_exec_trace env = [DoviStage.probe]
    ∨ (dovi_exec_trace env
          = [DoviStage.probe, DoviStage.extractVideo, DoviStage.demuxVideo,
             DoviStage.extractBaseRpu, DoviStage.extractEnhancementRpu]
        ∧ calculate_sha512 env (extract_layer env "BL_RPU.bin")
            ≠ calculate_sha512 env (extract_layer env "EL_RPU.bin"))
    ∨ (dovi_exec_trace env
          = [DoviStage.probe, DoviStage.extractVideo, DoviStage.demuxVideo,
             DoviStage.extractBaseRpu, DoviStage.extractEnhancementRpu,
             DoviStage.convertProfile, DoviStage.mergeMkv, DoviStage.moveToTarget]
        ∧ calculate_sha512 env (extract_layer env "BL_RPU.bin")
            = calculate_sha512 env (extract_layer env "EL_RPU.bin")) := by
  unfold dovi_exec_trace
  cases hp : (pyFalsyInt (get_dovi_profile env)
      || (get_dovi_profile env != some DOVI_PROFLE_7))
  · cases hd : (calculate_sha512 env (extract_layer env "BL_RPU.bin")
        != calculate_sha512 env (extract_layer env "EL_RPU.bin"))
    · right; right
      constructor
      · simp [hp, hd]
      · simpa using hd
    · right; left
      constructor
      · simp [hp, hd]
      · simpa using hd
  · left
    simp [hp]

/-- C1: the RPU sync guard — whenever the SHA-512 hex digests of the
base-layer RPU file and the enhancement-layer RPU file differ, `exec`
returns before the profile-conversion stage: `convert_dovi_profile` (and
hence `merge_mkv` and `move_to_target`) is never invoked; conversely,
`convert_dovi_profile` is invoked only when the two digests are equal. -/
theorem dovi_sync_guard (env : DoviEnv) :
    (calculate_sha512 env (extract_layer env "BL_RPU.bin")
        ≠ calculate_sha512 env (extract_layer env "EL_RPU.bin") →
      DoviStage.convertProfile ∉ dovi_exec_trace env ∧
      DoviStage.mergeMkv ∉ dovi_exec_trace env ∧
      DoviStage.moveToTarget ∉ dovi_exec_trace env) ∧
    (DoviStage.convertProfile ∈ dovi_exec_trace env →
      calculate_sha512 env (extract_layer env "BL_RPU.bin")
        = calculate_sha512 env (extract_layer env "EL_RPU.bin")) := by
  rcases dovi_trace_cases env with h | ⟨h, _⟩ | ⟨h, heq⟩
  · constructor
    · intro _
      rw [h]
      exact ⟨by decide, by decide, by decide⟩
    · intro hmem
      rw [h] at hmem
      exact absurd hmem (by decide)
  · constructor
    · intro _
      rw [h]
      exact ⟨by decide, by decide, by decide⟩
    · intro hmem
      rw [h] at hmem
      exact absurd hmem (by decide)
  · constructor
    · intro hne
      exact absurd heq hne
    · intro _
      exact heq

/-- Witness for C1 at a concrete environment whose two RPU files hash to
different digests: the conversion stage is absent from the trace. -/
theorem dovi_sync_guard_witness :
    DoviStage.convertProfile ∉ dovi_exec_trace
      { streams := [⟨[⟨some 7⟩]⟩], tmp_dir := "/t",
        fileBytes := fun p => if p = "/t/BL_RPU.bin" then [0] else [1],
        sha512hex := fun l => if l = [0] then "x" else "y" } :=
  ((dovi_sync_guard
      { streams := [⟨[⟨some 7⟩]⟩], tmp_dir := "/t",
        fileBytes := fun p => if p = "/t/BL_RPU.bin" then [0] else [1],
        sha512hex := fun l => if l = [0] then "x" else "y" }).1 (by decide)).1

/-- C8: probe disqualification is side-effect free — when the probed
Dolby-Vision profile is absent or not the triggering constant 7, `exec`
stops after the probe: the trace is exactly `[probe]`, `extract_video` is
never invoked, and every invoked stage neither writes the filesystem nor
touches the source file. -/
theorem dovi_probe_disqualification (env : DoviEnv)
    (h : get_dovi_profile env = none ∨ get_dovi_profile env ≠ some DOVI_PROFLE_7) :
    dovi_exec_trace env = [DoviStage.probe] ∧
    DoviStage.extractVideo ∉ dovi_exec_trace env ∧
    ∀ s ∈ dovi_exec_trace env,
      stageWritesFilesystem s = false ∧ stageModifiesSource s = false := by
  have hguard : (pyFalsyInt (get_dovi_profile env)
      || (get_dovi_profile env != some DOVI_PROFLE_7)) = true := by
    have hne : get_dovi_profile env ≠ some DOVI_PROFLE_7 := by
      rcases h with h | h
      · rw [h]
        intro hc
        cases hc
      · exact h
    simp [bne_iff_ne, hne]
  have ht : dovi_exec_trace env = [DoviStage.probe] := by
    unfold dovi_exec_trace
    simp [hguard]
  refine ⟨ht, ?_, ?_⟩
  · rw [ht]
    decide
  · rw [ht]
    intro s hs
    rw [List.mem_singleton] at hs
    subst hs
    exact ⟨rfl, rfl⟩

/-- Witness for C8 at a concrete environment probing profile 8: the trace
is exactly the probe. -/
theorem dovi_probe_disqualification_witness :
    dovi_exec_trace
      { streams := [⟨[⟨some 8⟩]⟩], tmp_dir := "/t",
        fileBytes := fun _ => [], sha512hex := fun _ => "h" }
      = [DoviStage.probe] :=
  (dovi_probe_disqualification
    { streams := [⟨[⟨some 8⟩]⟩], tmp_dir := "/t",
      fileBytes := fun _ => [], sha512hex := fun _ => "h" }
    (Or.inr (by decide))).1

/- ### Orchestrator: service-loop lemmas -/

theorem runService_attempted (st : OrchResult) (s : SvcSpec) :
    (runService st s).attempted = st.attempted ++ [s.name] := by
  unfold runService
  cases s.outcome with
  | notCreated => rfl
  | execOk tmp => cases tmp <;> rfl
  | raisesExc tmp =>
    by_cases hname : s.name ≠ "metadata_update"
    · simp [hname]
    · simp [hname]

theorem runService_completed (st : OrchResult) (s : SvcSpec) :
    (runService st s).completed
      = (st.completed && (!(outcomeRaises s.outcome) || (s.name == "metadata_update"))) := by
  unfold runService
  cases s.outcome with
  | notCreated => simp [outcomeRaises]
  | execOk tmp => cases tmp <;> simp [outcomeRaises]
  | raisesExc tmp =>
    by_cases hname : s.name = "metadata_update"
    · simp [outcomeRaises, hname]
    · have hbeq : (s.name == "metadata_update") = false := by
        simp [hname]
      simp [outcomeRaises, hname, hbeq]

theorem foldl_runService_attempted :
    ∀ (l : List SvcSpec) (st : OrchResult),
      (l.foldl runService st).attempted = st.attempted ++ l.map (fun s => s.name) := by
  intro l
  induction l with
  | nil => intro st; simp
  | cons s t ih =>
    intro st
    rw [List.foldl_cons, ih, runService_attempted, List.map_cons]
    simp

theorem foldl_runService_completed :
    ∀ (l : List SvcSpec) (st : OrchResult),
      (l.foldl runService st).completed
        = (st.completed
            && l.all (fun s => !(outcomeRaises s.outcome) || (s.name == "metadata_update"))) := by
  intro l
  induction l with
  | nil => intro st; simp
  | cons s t ih =>
    intro st
    rw [List.foldl_cons, ih, runService_completed, List.all_cons, Bool.and_assoc]

/-- C2: for an enabled webhook with a non-empty service list,
`process_webhook` attempts every configured service exactly once, in
priority order (the attempted names are exactly the sorted services', and
the sorted list is a permutation of the configured one), and the returned
flag is `true` iff every service that raised is the `metadata_update`
service — so a `metadata_update` failure leaves the flag true, any other
failure makes it false, and in both cases the remaining services still
run. -/
theorem orchestrator_runs_all_services (services : List SvcSpec)
    (hne : services ≠ []) :
    (process_webhook true services).attempted
        = (pysortServices services).map (fun s => s.name) ∧
    List.Perm (pysortServices services) services ∧
    ((process_webhook true services).completed = true ↔
      ∀ s ∈ services, outcomeRaises s.outcome = true → s.name = "metadata_update") := by
  have hperm : List.Perm (pysortServices services) services :=
    List.perm_insertionSort _ services
  have hniz : (pysortServices services).isEmpty = false := by
    cases hE : (pysortServices services).isEmpty
    · rfl
    · exfalso
      apply hne
      have h0 : pysortServices services = [] := List.isEmpty_iff.mp hE
      have hp : List.Perm services ([] : List SvcSpec) := by
        rw [← h0]
        exact hperm.symm
      exact List.Perm.eq_nil hp
  have hrun : process_webhook true services
      = (pysortServices services).foldl runService ⟨true, [], []⟩ := by
    unfold process_webhook
    simp [hniz]
  refine ⟨?_, hperm, ?_⟩
  · rw [hrun, foldl_runService_attempted]
    simp
  · rw [hrun, foldl_runService_completed]
    have hpred : ∀ s : SvcSpec,
        ((!(outcomeRaises s.outcome) || (s.name == "metadata_update")) = true)
          ↔ (outcomeRaises s.outcome = true → s.name = "metadata_update") := by
      intro s
      cases h1 : outcomeRaises s.outcome
      · simp [h1]
      · simp [h1]
    simp only [Bool.true_and]
    rw [List.all_eq_true]
    constructor
    · intro hall s hs hr
      exact (hpred s).mp (hall s (hperm.mem_iff.mpr hs)) hr
    · intro himp s hs
      exact (hpred s).mpr (himp s (hperm.mem_iff.mp hs))

/-- Witness for C2 at a two-service configuration where `metadata_update`
raises and the other service succeeds: the completion flag stays true. -/
theorem orchestrator_runs_all_services_witness :
    (process_webhook true
        [⟨"metadata_update", some 10, SvcOutcome.raisesExc none⟩,
         ⟨"dovi_conversion", some 20, SvcOutcome.execOk (some "/tmp/d")⟩]).completed = true ↔
      ∀ s ∈ ([⟨"metadata_update", some 10, SvcOutcome.raisesExc none⟩,
              ⟨"dovi_conversion", some 20, SvcOutcome.execOk (some "/tmp/d")⟩] : List SvcSpec),
        outcomeRaises s.outcome = true → s.name = "metadata_update" :=
  (orchestrator_runs_all_services
    [⟨"metadata_update", some 10, SvcOutcome.raisesExc none⟩,
     ⟨"dovi_conversion", some 20, SvcOutcome.execOk (some "/tmp/d")⟩]
    (by decide)).2.2

/-- C5 (code bug): a scratch directory created by a job whose `exec` raised
is never cleaned.  With one enabled service whose instance created
`/tmp/jellyhook/Movie` and whose `exec` raised, the orchestrator's
`temp_dirs` stays empty (the tracking line sits after `service.exec()` in
the loop body), so the cleanup phase removes nothing although the directory
exists on disk. -/
theorem raised_exec_scratch_dir_not_cleaned :
    createdDirs
        [⟨"dovi_conversion", none, SvcOutcome.raisesExc (some "/tmp/jellyhook/Movie")⟩]
      = ["/tmp/jellyhook/Movie"] ∧
    (process_webhook true
        [⟨"dovi_conversion", none,
          SvcOutcome.raisesExc (some "/tmp/jellyhook/Movie")⟩]).temp_dirs = [] ∧
    cleanup
        (process_webhook true
          [⟨"dovi_conversion", none,
            SvcOutcome.raisesExc (some "/tmp/jellyhook/Movie")⟩]).temp_dirs
        (fun _ => CleanOutcome.ok)
      = Except.ok [] :=
  ⟨by decide, by decide, rfl⟩

/-- C10: `process_webhook_message` is total and maps every exception
escaping parsing, orchestration or cleanup to `false` — it returns the
orchestrator's boolean when the `try` body succeeds, and `false` whenever
the body raises. -/
theorem webhook_message_errors_yield_false (env : MsgEnv) :
    (∀ e : PwmErr, pwm_run env = Except.error e → process_webhook_message env = false) ∧
    (∀ b : Bool, pwm_run env = Except.ok b → process_webhook_message env = b) := by
  constructor
  · intro e he
    unfold process_webhook_message
    rw [he]
  · intro b hb
    unfold process_webhook_message
    rw [hb]

/-- Witness for C10 at a message whose body is not valid JSON: the result
is `false`. -/
theorem webhook_message_errors_yield_false_witness :
    process_webhook_message
      { json_ok := false, webhook_enabled := true, services := [],
        clean_result := fun _ => CleanOutcome.ok } = false :=
  (webhook_message_errors_yield_false
    { json_ok := false, webhook_enabled := true, services := [],
      clean_result := fun _ => CleanOutcome.ok }).1 PwmErr.jsonDecodeError rfl

/-- C9: negative acknowledgment never requeues — on an open channel a
failed message is nacked with the requeue flag false, and no call of
`ack_message` ever produces a nack whose requeue flag is true. -/
theorem nack_never_requeues (channel_is_open : Bool) (delivery_tag : Int)
    (completed : Bool) (requeue : Bool) :
    ack_message true delivery_tag false = AckAction.basicNack delivery_tag false ∧
    (ack_message channel_is_open delivery_tag completed
        = AckAction.basicNack delivery_tag requeue → requeue = false) := by
  constructor
  · rfl
  · intro h
    unfold ack_message at h
    cases channel_is_open
    · simp at h
    · cases completed
      · simp at h
        exact h
      · simp at h

/-- Witness for C9 at a concrete delivery tag: the failure path nacks with
requeue false, and the requeue-flag conclusion instantiates. -/
theorem nack_never_requeues_witness :
    ack_message true 1 false = AckAction.basicNack 1 false ∧ false = false :=
  ⟨(nack_never_requeues true 1 false false).1,
   (nack_never_requeues true 1 false false).2 (nack_never_requeues true 1 false false).1⟩
